import Mathlib

/-!
Verification of the sub-canopy structure detection pipeline
(`sub_canopy_detector/analysis.py`) against its natural-language
specification.

The Python code is shallowly embedded over exact rationals: every IEEE-754
double that matters to a claim is represented by its exact rational value,
NaN ("missing data") is represented by `Option.none`, and 2-D rasters are
represented either per-pixel or as functions `ℤ → ℤ → Option ℚ` (pixels
outside an array's bounds behave like scipy's `border_value=0`).

Source functions embedded here (names kept close to the source; `_pol_ratio`
becomes `polRat` and the weight field `w_polratio` becomes `w_polrat` for
naming-convention reasons):

* `SubCanopyAnalyser.__init__`        → `analyserInitCheck`
* weighted fusion in `run` (step 5)   → `fusion`, `probability`
* confidence zoning in `run` (step 6) → `confidence`
* `_stability`                        → `stability`
* `_pol_ratio`                        → `polRat`
* `_morphological_open`               → `morphologicalOpen`
* `_seasonal_invariance`              → `seasonalInvariance`
* `_extract_footprints`               → `extractFootprints`, `areaKeep`
* `_regularize_footprints`            → `hardFilterPass`, `regularizeFootprints`,
                                        `waterScore`, `buildingScore`
-/

/-- `np.clip(x, lo, hi)`: values below `lo` become `lo`, above `hi` become
`hi` (and if `lo > hi` the result is `hi`, matching numpy). -/
def clip (x lo hi : ℚ) : ℚ := min hi (max lo x)

/-- The epsilon `1e-10` used throughout the source to guard denominators. -/
def eps : ℚ := 1 / 10 ^ 10

/-- Exact rational value of the IEEE-754 double literal `0.01`
(the weight-sum tolerance in `SubCanopyAnalyser.__init__`). -/
def f64c01 : ℚ := 5764607523034235 / 2 ^ 59

/-- Exact rational value of the IEEE-754 double literal `0.99`: the value
`total_w` actually holds when a weight set summing to 0.99 is accumulated
in double precision (e.g. the default weights with `w_seasonal` lowered
to 0.09 accumulate to exactly this double). -/
def f64c99 : ℚ := 4458563631096791 / 2 ^ 52

/-- `SubCanopyAnalyser.__init__` weight validation: given the accumulated
weight total `total_w`, raise `ValueError` when `abs(total_w - 1.0) > 0.01`
(the comparison the source performs on doubles, embedded exactly), else
construction succeeds.  The source's error message additionally interpolates
the offending total; that formatting is not modelled. -/
def analyserInitCheck (total_w : ℚ) : Except String Unit :=
  if f64c01 < |total_w - 1| then
    Except.error "Fusion weights must sum to 1.0"
  else
    Except.ok ()

/-- The eight fusion weights (`w_stability` … `w_seasonal` in `DEFAULT_PARAMS`). -/
structure Weights where
  w_stability : ℚ
  w_polrat : ℚ
  w_texture : ℚ
  w_anomaly : ℚ
  w_optical : ℚ
  w_entropy : ℚ
  w_coherence : ℚ
  w_seasonal : ℚ
deriving DecidableEq

/-- The sum `total_w` computed in `SubCanopyAnalyser.__init__`. -/
def sumWeights (w : Weights) : ℚ :=
  w.w_stability + w.w_polrat + w.w_texture + w.w_anomaly + w.w_optical
    + w.w_entropy + w.w_coherence + w.w_seasonal

/-- The default fusion weights of `DEFAULT_PARAMS` (exact decimals). -/
def defaultWeights : Weights :=
  ⟨18/100, 12/100, 12/100, 13/100, 10/100, 13/100, 12/100, 10/100⟩

/-- A legal weight override: `w_stability=0.6`, `w_polratio=0.409`, all other
weights zero.  Its total 1.009 deviates from 1.0 by only 0.009, inside the
±0.01 construction tolerance. -/
def cexWeights : Weights := ⟨6/10, 409/1000, 0, 0, 0, 0, 0, 0⟩

/-- The eight per-pixel indicator values entering the step-5 fusion. -/
structure Indicators where
  stability : ℚ
  pol_rat : ℚ
  texture : ℚ
  anomaly : ℚ
  optical : ℚ
  entropy : ℚ
  coherence : ℚ
  seasonal : ℚ
deriving DecidableEq

/-- Step 5 of `run`: the 8-indicator weighted linear fusion at one pixel. -/
def fusion (w : Weights) (i : Indicators) : ℚ :=
  w.w_stability * i.stability + w.w_polrat * i.pol_rat
    + w.w_texture * i.texture + w.w_anomaly * i.anomaly
    + w.w_optical * i.optical + w.w_entropy * i.entropy
    + w.w_coherence * i.coherence + w.w_seasonal * i.seasonal

/-- `probability = np.where(combined_mask, fusion, np.nan)` at one pixel:
`mask` is the combined validity/forest/slope mask, `none` models NaN. -/
def probability (mask : Bool) (w : Weights) (i : Indicators) : Option ℚ :=
  if mask then some (fusion w i) else none

/-- All eight fusion weights are nonnegative. -/
def WeightsNonneg (w : Weights) : Prop :=
  0 ≤ w.w_stability ∧ 0 ≤ w.w_polrat ∧ 0 ≤ w.w_texture ∧ 0 ≤ w.w_anomaly
    ∧ 0 ≤ w.w_optical ∧ 0 ≤ w.w_entropy ∧ 0 ≤ w.w_coherence ∧ 0 ≤ w.w_seasonal

instance (w : Weights) : Decidable (WeightsNonneg w) := by
  unfold WeightsNonneg; infer_instance

/-- All eight indicator values lie in the unit interval. -/
def IndicatorsUnit (i : Indicators) : Prop :=
  (0 ≤ i.stability ∧ i.stability ≤ 1) ∧ (0 ≤ i.pol_rat ∧ i.pol_rat ≤ 1)
    ∧ (0 ≤ i.texture ∧ i.texture ≤ 1) ∧ (0 ≤ i.anomaly ∧ i.anomaly ≤ 1)
    ∧ (0 ≤ i.optical ∧ i.optical ≤ 1) ∧ (0 ≤ i.entropy ∧ i.entropy ≤ 1)
    ∧ (0 ≤ i.coherence ∧ i.coherence ≤ 1) ∧ (0 ≤ i.seasonal ∧ i.seasonal ≤ 1)

instance (i : Indicators) : Decidable (IndicatorsUnit i) := by
  unfold IndicatorsUnit; infer_instance

/-- `_stability`: `cov = vv_std / np.maximum(vv_mean, 1e-10)`,
`raw = 1 - np.clip(cov, 0, 1)`, result `np.clip(raw, stability_floor, 1)`,
at one pixel.  `floor` is the `stability_floor` parameter. -/
def stability (floor vv_mean vv_std : ℚ) : ℚ :=
  clip (1 - clip (vv_std / max vv_mean eps) 0 1) floor 1

/-- `_pol_ratio` at one pixel: `ratio = vh_mean / np.maximum(vv_mean, 1e-10)`,
normalised by the `[pol_ratio_min, pol_ratio_max]` window (`cmin`, `cmax`)
and clipped to `[0, 1]`. -/
def polRat (cmin cmax vv_mean vh_mean : ℚ) : ℚ :=
  clip ((vh_mean / max vv_mean eps - cmin) / (cmax - cmin + eps)) 0 1

/-- Step 6 of `run`: confidence zoning at one pixel.  Starting from 0, pixels
with `probability >= thresh_medium` get 2, pixels with
`probability >= thresh_high` get 3, and NaN pixels get 0 (NaN comparisons
are false in numpy, so a missing pixel is 0 either way). -/
def confidence (med high : ℚ) (p : Option ℚ) : ℤ :=
  match p with
  | none => 0
  | some v => if high ≤ v then 3 else if med ≤ v then 2 else 0

/-- The 3x3 structuring element `np.ones((3, 3))` as a list of offsets. -/
def nbhd3 : List (ℤ × ℤ) :=
  [(-1, -1), (-1, 0), (-1, 1), (0, -1), (0, 0), (0, 1), (1, -1), (1, 0), (1, 1)]

/-- `scipy.ndimage.binary_erosion` with the 3x3 structuring element and one
iteration, on a boolean grid (cells outside a finite array are `false`,
matching scipy's default `border_value=0`). -/
def erode (b : ℤ → ℤ → Bool) (x y : ℤ) : Bool :=
  nbhd3.all fun d => b (x + d.1) (y + d.2)

/-- `scipy.ndimage.binary_dilation` with the 3x3 structuring element and one
iteration. -/
def dilate (b : ℤ → ℤ → Bool) (x y : ℤ) : Bool :=
  nbhd3.any fun d => b (x + d.1) (y + d.2)

/-- `_morphological_open`: binarize at `thr` (NaN pixels excluded), erode then
dilate with the 3x3 element, then re-apply the original probability where the
cleaned mask holds and NaN (`none`) elsewhere. -/
def morphologicalOpen (prob : ℤ → ℤ → Option ℚ) (thr : ℚ) (x y : ℤ) : Option ℚ :=
  let binary : ℤ → ℤ → Bool := fun u v =>
    match prob u v with
    | none => false
    | some q => decide (thr ≤ q)
  if dilate (erode binary) x y then prob x y else none

/-- Probability raster holding a single isolated above-threshold pixel at the
origin over a valid below-threshold background (for threshold 1). -/
def probIso (x y : ℤ) : Option ℚ :=
  if x = 0 ∧ y = 0 then some 1 else some 0

/-- Probability raster holding a contiguous 5x5 above-threshold block on
`[0,4] × [0,4]` over a valid below-threshold background (for threshold 1). -/
def probBlock (x y : ℤ) : Option ℚ :=
  if 0 ≤ x ∧ x ≤ 4 ∧ 0 ≤ y ∧ y ≤ 4 then some 1 else some 0

/-- Row/column indices of the 5x5 block. -/
def blockIdx : List ℤ := [0, 1, 2, 3, 4]

/-- The four fixed calendar quarters of `_seasonal_invariance`:
`[(12,1,2), (3,4,5), (6,7,8), (9,10,11)]`. -/
def quarterList : List (List ℕ) := [[12, 1, 2], [3, 4, 5], [6, 7, 8], [9, 10, 11]]

/-- The pixel values of the scenes whose acquisition month falls in quarter
`q`; a scene is a `(month, pixel value)` pair. -/
def quarterScenes (scenes : List (ℕ × ℚ)) (q : List ℕ) : List ℚ :=
  (scenes.filter fun s => q.contains s.1).map Prod.snd

/-- The quarter means kept by `_seasonal_invariance`: one mean per quarter
having at least 3 contributing scenes (`mask.sum() >= 3`). -/
def keptQuarterMeans (scenes : List (ℕ × ℚ)) : List ℚ :=
  (quarterList.map (quarterScenes scenes)).filterMap fun vs =>
    if 3 ≤ vs.length then some (vs.sum / vs.length) else none

/-- The seasonal coefficient of variation of `_seasonal_invariance`:
`np.nanstd(q_stack, axis=0) / np.maximum(np.nanmean(q_stack, axis=0), 1e-10)`
over the kept quarter means at one pixel.  `np.nanstd` takes a real square
root of the (population) variance, so the value lives in `ℝ`. -/
noncomputable def seasonalCV (qms : List ℚ) : ℝ :=
  Real.sqrt ((((qms.map fun x => (x - qms.sum / qms.length) ^ 2).sum / qms.length : ℚ) : ℝ))
    / ((max (qms.sum / qms.length) eps : ℚ) : ℝ)

/-- `_seasonal_invariance` at one pixel: if fewer than two quarters have
sufficient coverage (`len(quarter_means) < 2`), return the neutral constant
0.5; otherwise invert the seasonal coefficient of variation and clip to
`[0, 1]` (`np.clip(1.0 - np.clip(seasonal_cv, 0.0, 1.0), 0.0, 1.0)`). -/
noncomputable def seasonalInvariance (scenes : List (ℕ × ℚ)) : ℝ :=
  if (keptQuarterMeans scenes).length < 2 then 1 / 2
  else
    min 1 (max 0 (1 - min 1 (max 0 (seasonalCV (keptQuarterMeans scenes)))))

/-- The area filter of `_extract_footprints`: a labeled region of `area_px`
pixels is kept unless `area_px * pixel_area < min_area`
(`if area_m2 < min_area: continue`). -/
def areaKeep (area_px : ℕ) (pixel_area min_area : ℚ) : Bool :=
  !decide ((area_px : ℚ) * pixel_area < min_area)

/-- A GeoDataFrame: a named column layout plus a list of typed rows. -/
structure GeoFrame (α : Type) where
  columns : List String
  rows : List α
deriving DecidableEq

/-- Columns of the raw-footprint GeoDataFrame built by `_extract_footprints`. -/
def FP_COLS : List String := ["geometry", "area_m2", "prob_mean", "prob_max"]

/-- `_EMPTY_COLS`: columns of the regularized-footprint GeoDataFrame. -/
def REG_COLS : List String :=
  ["geometry", "area_m2", "prob_mean", "prob_max",
   "compactness", "rectangularity", "solidity",
   "aspect_ratio", "edge_sharpness", "ndwi_mean",
   "building_score", "is_rectangular"]

/-- A labeled connected region handed to the vectorizer: its pixel count
(`region.area`) and the cleaned-probability values inside it. -/
structure Region where
  area_px : ℕ
  prob_vals : List ℚ
deriving DecidableEq

/-- One raw-footprint record (`area_m2`, `prob_mean`, `prob_max`; the source
additionally rounds these for display — `round(x, 1)` / `round(x, 4)` — which
is not modelled, and carries the polygon geometry, which is kept abstract). -/
structure FootprintRec where
  area_m2 : ℚ
  prob_mean : ℚ
  prob_max : ℚ
deriving DecidableEq

/-- Build the attribute record of one surviving region. -/
def mkFootprintRec (r : Region) (pixel_area : ℚ) : FootprintRec :=
  { area_m2 := (r.area_px : ℚ) * pixel_area
    prob_mean := r.prob_vals.sum / r.prob_vals.length
    prob_max := r.prob_vals.foldr max 0 }

/-- `_extract_footprints` after connected-component labeling: if no feature
was labeled, return the empty typed frame; otherwise keep regions passing the
area filter; if no record survives, return the empty typed frame; else return
the surviving records.  The collection always carries `FP_COLS`. -/
def extractFootprints (regions : List Region) (pixel_area min_area : ℚ) :
    GeoFrame FootprintRec :=
  if regions.isEmpty then ⟨FP_COLS, []⟩
  else
    let records := (regions.filter fun r => areaKeep r.area_px pixel_area min_area).map
      (mkFootprintRec · pixel_area)
    if records.isEmpty then ⟨FP_COLS, []⟩ else ⟨FP_COLS, records⟩

/-- One candidate polygon entering the regularizer's hard filters, with the
geometric quantities and composite score computed for it. -/
structure Candidate where
  area : ℚ
  compactness : ℚ
  aspect : ℚ
  solidity : ℚ
  building_score : ℚ
deriving DecidableEq

/-- The regularisation parameters consulted by the hard filters. -/
structure RegParams where
  max_footprint_area : ℚ
  min_compactness : ℚ
  max_aspect : ℚ
  min_solidity : ℚ
  min_building_score : ℚ
deriving DecidableEq

/-- The multi-criteria hard filter of `_regularize_footprints`: a candidate is
dropped (`continue`) when its area exceeds the ceiling, its compactness,
solidity or building score is below the floor, or its aspect ratio exceeds
the ceiling. -/
def hardFilterPass (p : RegParams) (c : Candidate) : Bool :=
  !decide (p.max_footprint_area < c.area)
    && !decide (c.compactness < p.min_compactness)
    && !decide (p.max_aspect < c.aspect)
    && !decide (c.solidity < p.min_solidity)
    && !decide (c.building_score < p.min_building_score)

/-- `_regularize_footprints` control flow around the per-footprint loop: an
empty input yields the empty `_EMPTY_COLS` frame; otherwise candidates failing
any hard filter are dropped; if none survive, the empty `_EMPTY_COLS` frame is
returned, else the survivors sorted by descending building score. -/
def regularizeFootprints (p : RegParams) (cands : List Candidate) :
    GeoFrame Candidate :=
  if cands.isEmpty then ⟨REG_COLS, []⟩
  else
    let recs := cands.filter (hardFilterPass p)
    if recs.isEmpty then ⟨REG_COLS, []⟩
    else ⟨REG_COLS, recs.mergeSort fun a b => decide (b.building_score ≤ a.building_score)⟩

/-- The water-penalty component of the composite building score:
`max(0.0, 1.0 - max(ndwi_mean, 0.0) * 5.0)`. -/
def waterScore (ndwi_mean : ℚ) : ℚ := max 0 (1 - max ndwi_mean 0 * 5)

/-- The composite building score of `_regularize_footprints`: seven component
scores combined with the fixed weights `0.18/0.14/0.14/0.13/0.13/0.12/0.16`;
the water component is derived from the sampled `ndwi_mean`. -/
def buildingScore (rect compact solid edge size prob ndwi_mean : ℚ) : ℚ :=
  18/100 * rect + 14/100 * compact + 14/100 * solid + 13/100 * edge
    + 13/100 * size + 12/100 * prob + 16/100 * waterScore ndwi_mean

/-- C1: constructing the analyser validates the eight fusion weights before
any computation: a weight total of exactly 1.0 passes, the double a
0.99-summing weight set accumulates to fails with the "weights must sum"
error, and any total deviating from 1.0 beyond the tolerance (the double
0.01, embedded exactly) raises the descriptive error. -/
theorem fusion_weight_validation :
    analyserInitCheck 1 = Except.ok ()
      ∧ analyserInitCheck f64c99 = Except.error "Fusion weights must sum to 1.0"
      ∧ ∀ t : ℚ, f64c01 < |t - 1| →
          analyserInitCheck t = Except.error "Fusion weights must sum to 1.0" := by
  refine ⟨?_, ?_, fun t ht => ?_⟩
  · unfold analyserInitCheck
    have h0 : ¬(f64c01 < |(1 : ℚ) - 1|) := by
      rw [sub_self, abs_zero, not_lt]
      norm_num [f64c01]
    rw [if_neg h0]
  · unfold analyserInitCheck
    have h1 : |f64c99 - (1 : ℚ)| = 1 - f64c99 := by
      rw [abs_of_neg (by norm_num [f64c99])]
      ring
    rw [if_pos (by rw [h1]; norm_num [f64c01, f64c99])]
  · unfold analyserInitCheck
    rw [if_pos ht]

/-- Witness for `fusion_weight_validation`: a weight total of 1.09 deviates
beyond the tolerance and is rejected. -/
theorem fusion_weight_validation_eval :
    f64c01 < |(109 / 100 : ℚ) - 1|
      ∧ analyserInitCheck (109 / 100) = Except.error "Fusion weights must sum to 1.0" := by
  have h : f64c01 < |(109 / 100 : ℚ) - 1| := by
    rw [show |(109 / 100 : ℚ) - 1| = 9 / 100 by norm_num]
    norm_num [f64c01]
  exact ⟨h, fusion_weight_validation.2.2 _ h⟩

/-- C3: confidence classification is monotonic in probability: for any two
non-missing probabilities `p1 < p2` classified with the same medium and high
thresholds, the tier of `p1` is at most the tier of `p2`. -/
theorem confidence_monotone :
    ∀ med high p1 p2 : ℚ, p1 < p2 →
      confidence med high (some p1) ≤ confidence med high (some p2) := by
  intro med high p1 p2 h
  simp only [confidence]
  split_ifs <;> first | (exfalso; linarith) | norm_num

/-- Witness for `confidence_monotone` at the default thresholds. -/
theorem confidence_monotone_eval :
    (3 / 10 : ℚ) < 5 / 10
      ∧ confidence (45/100) (65/100) (some (3/10))
          ≤ confidence (45/100) (65/100) (some (5/10)) :=
  ⟨by norm_num, confidence_monotone _ _ _ _ (by norm_num)⟩

/-- C10: the confidence raster only ever holds the codes 0, 2 and 3 — the
"low" code 1 of the data model is never assigned — a missing pixel is coded
0, and (with the thresholds ordered `medium ≤ high` as configured) a valid
pixel below the medium threshold is coded 0, identically to a missing
background pixel. -/
theorem confidence_code_values :
    (∀ (med high : ℚ) (p : Option ℚ),
        confidence med high p = 0 ∨ confidence med high p = 2
          ∨ confidence med high p = 3)
      ∧ (∀ med high : ℚ, confidence med high none = 0)
      ∧ (∀ med high v : ℚ, med ≤ high → v < med →
          confidence med high (some v) = 0) := by
  refine ⟨fun med high p => ?_, fun med high => rfl, fun med high v hmh hv => ?_⟩
  · cases p with
    | none => exact Or.inl rfl
    | some v =>
      simp only [confidence]
      split_ifs <;> simp
  · simp only [confidence]
    have h1 : ¬(high ≤ v) := by linarith
    have h2 : ¬(med ≤ v) := by linarith
    simp [h1, h2]

/-- Witness for `confidence_code_values` at the default thresholds. -/
theorem confidence_code_values_eval :
    (45/100 : ℚ) ≤ 65/100 ∧ (3/10 : ℚ) < 45/100
      ∧ confidence (45/100) (65/100) (some (3/10)) = 0
      ∧ confidence (45/100) (65/100) none = 0 :=
  ⟨by norm_num, by norm_num,
    confidence_code_values.2.2 _ _ _ (by norm_num) (by norm_num),
    confidence_code_values.2.1 _ _⟩

/-- C7: with every other scored component held fixed, a candidate polygon
whose sampled water index is 0.3 receives a strictly lower composite
building score than one whose sampled water index is -0.1. -/
theorem water_penalty_strict :
    ∀ rect compact solid edge size prob : ℚ,
      buildingScore rect compact solid edge size prob (3/10)
        < buildingScore rect compact solid edge size prob (-(1/10)) := by
  intro rect compact solid edge size prob
  unfold buildingScore waterScore
  have h1 : max (3/10 : ℚ) 0 = 3/10 := by norm_num
  have h2 : max (-(1/10) : ℚ) 0 = 0 := by norm_num
  rw [h1, h2]
  have h3 : max (0 : ℚ) (1 - 3/10 * 5) = 0 := by norm_num
  have h4 : max (0 : ℚ) (1 - 0 * 5) = 1 := by norm_num
  rw [h3, h4]
  linarith

/-- Witness for `water_penalty_strict` with all other components at 1. -/
theorem water_penalty_strict_eval :
    buildingScore 1 1 1 1 1 1 (3/10) < buildingScore 1 1 1 1 1 1 (-(1/10)) :=
  water_penalty_strict 1 1 1 1 1 1

/-- C4: the stability indicator equals `clamp(1 - std/mean, floor, 1)` with
the epsilon-guarded denominator `max(mean, 1e-10)` (which is always positive,
so the division never raises), and zero temporal variance (`std = 0`) yields
a stability of exactly 1 at the pixel. -/
theorem stability_clamp_spec :
    ∀ floor vv_mean vv_std : ℚ, 0 ≤ floor → 0 ≤ vv_std →
      0 < max vv_mean eps
        ∧ stability floor vv_mean vv_std
            = clip (1 - vv_std / max vv_mean eps) floor 1
        ∧ (vv_std = 0 → stability floor vv_mean vv_std = 1) := by
  intro floor m s hf hs
  have hd : (0 : ℚ) < max m eps := lt_max_of_lt_right (by norm_num [eps])
  have hc0 : 0 ≤ s / max m eps := div_nonneg hs hd.le
  refine ⟨hd, ?_, ?_⟩
  · unfold stability clip
    rcases le_or_lt (s / max m eps) 1 with h1 | h1
    · rw [max_eq_right hc0, min_eq_right h1]
    · rw [max_eq_right hc0, min_eq_left h1.le]
      have h2 : max floor (1 - s / max m eps) = floor := max_eq_left (by linarith)
      rw [h2]
      have h3 : max floor (1 - 1) = floor := max_eq_left (by linarith)
      rw [h3]
  · intro h0
    subst h0
    unfold stability clip
    rw [zero_div]
    have h4 : max (0 : ℚ) 0 = 0 := max_self 0
    rw [h4, min_eq_right (by norm_num : (0 : ℚ) ≤ 1), sub_zero]
    exact min_eq_left (le_max_right floor 1)

/-- Witness for `stability_clamp_spec` at the default floor 0.7, mean 1,
zero temporal standard deviation. -/
theorem stability_clamp_spec_eval :
    (0 : ℚ) ≤ 7/10 ∧ (0 : ℚ) ≤ 0 ∧ stability (7/10) 1 0 = 1 :=
  ⟨by norm_num, le_refl 0,
    (stability_clamp_spec (7/10) 1 0 (by norm_num) (le_refl 0)).2.2 rfl⟩

/-- C5 counterexample: with `min_area = 300` and `pixel_area = 100` (an exact
integer multiple), a labeled region of exactly
`floor(min_area / pixel_area) = 3` pixels reaches exactly `min_area` and is
KEPT by the area filter (`area_m2 < min_area` is strict), contradicting the
claim that it must be excluded. -/
theorem area_filter_boundary_cex :
    (⌊(300 : ℚ) / 100⌋ = 3) ∧ areaKeep 3 100 300 = true := by
  constructor
  · norm_num
  · simp only [areaKeep, Bool.not_eq_true', decide_eq_false_iff_not, not_lt]
    push_cast
    norm_num

/-- C5 amended: a region of exactly `floor(min_area / pixel_area)` pixels is
excluded precisely when its area falls strictly below `min_area`, i.e. when
`min_area` is not the exact multiple `floor(min_area / pixel_area) *
pixel_area`; at the exact multiple the region reaches `min_area` and is kept;
a region with one more pixel is always kept. -/
theorem area_filter_boundary_amended :
    ∀ pixel_area min_area : ℚ, 0 < pixel_area → 0 ≤ min_area →
      (min_area ≠ (⌊min_area / pixel_area⌋ : ℚ) * pixel_area →
        areaKeep (⌊min_area / pixel_area⌋.toNat) pixel_area min_area = false)
        ∧ (min_area = (⌊min_area / pixel_area⌋ : ℚ) * pixel_area →
            areaKeep (⌊min_area / pixel_area⌋.toNat) pixel_area min_area = true)
        ∧ areaKeep (⌊min_area / pixel_area⌋.toNat + 1) pixel_area min_area = true := by
  intro pa ma hpa hma
  have h0 : (0 : ℚ) ≤ ma / pa := div_nonneg hma hpa.le
  have hn0 : 0 ≤ ⌊ma / pa⌋ := Int.floor_nonneg.mpr h0
  have hcast : ((⌊ma / pa⌋.toNat : ℕ) : ℚ) = ((⌊ma / pa⌋ : ℤ) : ℚ) := by
    exact_mod_cast congrArg (fun z : ℤ => (z : ℚ)) (Int.toNat_of_nonneg hn0)
  have hle : ((⌊ma / pa⌋ : ℤ) : ℚ) * pa ≤ ma := by
    have h1 : ((⌊ma / pa⌋ : ℤ) : ℚ) ≤ ma / pa := Int.floor_le (ma / pa)
    have h2 := mul_le_mul_of_nonneg_right h1 hpa.le
    rwa [div_mul_cancel₀ ma hpa.ne'] at h2
  have hlt : ma < (((⌊ma / pa⌋ : ℤ) : ℚ) + 1) * pa := by
    have h1 : ma / pa < ((⌊ma / pa⌋ : ℤ) : ℚ) + 1 := Int.lt_floor_add_one (ma / pa)
    have h2 := mul_lt_mul_of_pos_right h1 hpa
    rwa [div_mul_cancel₀ ma hpa.ne'] at h2
  refine ⟨?_, ?_, ?_⟩
  · intro hne
    have hlt' : ((⌊ma / pa⌋ : ℤ) : ℚ) * pa < ma :=
      lt_of_le_of_ne hle fun h => hne h.symm
    simp only [areaKeep, hcast, Bool.not_eq_false', decide_eq_true_eq]
    exact hlt'
  · intro heq
    simp only [areaKeep, hcast, Bool.not_eq_true', decide_eq_false_iff_not, not_lt]
    exact le_of_eq heq
  · have hcast1 : ((⌊ma / pa⌋.toNat + 1 : ℕ) : ℚ) = ((⌊ma / pa⌋ : ℤ) : ℚ) + 1 := by
      rw [Nat.cast_add, Nat.cast_one, hcast]
    simp only [areaKeep, hcast1, Bool.not_eq_true', decide_eq_false_iff_not, not_lt]
    exact hlt.le

/-- Witness for `area_filter_boundary_amended`: `min_area = 250`,
`pixel_area = 100`: the 2-pixel region (area 200) is excluded, the 3-pixel
region is included. -/
theorem area_filter_boundary_eval :
    (0 : ℚ) < 100 ∧ (0 : ℚ) ≤ 250
      ∧ (250 : ℚ) ≠ (⌊(250 : ℚ) / 100⌋ : ℚ) * 100
      ∧ areaKeep (⌊(250 : ℚ) / 100⌋.toNat) 100 250 = false
      ∧ areaKeep (⌊(250 : ℚ) / 100⌋.toNat + 1) 100 250 = true := by
  have h := area_filter_boundary_amended 100 250 (by norm_num) (by norm_num)
  have hne : (250 : ℚ) ≠ (⌊(250 : ℚ) / 100⌋ : ℚ) * 100 := by
    norm_num
  exact ⟨by norm_num, by norm_num, hne, h.1 hne, h.2.2⟩

/-- C2 counterexample: a weight set passing the construction-time ±0.01
validation (total 1.009) combined with reachable indicator values (the
stability and polarimetric-ratio indicators both attain exactly 1, the
remaining zero-weighted channels 0) produces, at a pixel where the combined
mask holds, the probability 1.009 — outside [0, 1].  So the claim "at every
on-mask pixel the value lies in [0, 1]" fails for some runs the constructor
accepts. -/
theorem probability_unit_interval_cex :
    analyserInitCheck (sumWeights cexWeights) = Except.ok ()
      ∧ stability (7/10) 1 0 = 1
      ∧ polRat (2/100) (3/10) 1 1 = 1
      ∧ probability true cexWeights ⟨1, 1, 0, 0, 0, 0, 0, 0⟩ = some (1009/1000)
      ∧ ¬((1009/1000 : ℚ) ≤ 1) := by
  refine ⟨?_, ?_, ?_, ?_, by norm_num⟩
  · have hs : sumWeights cexWeights = 1009/1000 := by
      norm_num [sumWeights, cexWeights]
    rw [hs]
    unfold analyserInitCheck
    rw [if_neg]
    rw [not_lt, show |(1009/1000 : ℚ) - 1| = 9/1000 by norm_num]
    norm_num [f64c01]
  · have h1 : max (1 : ℚ) eps = 1 := max_eq_left (by norm_num [eps])
    unfold stability clip
    rw [h1]
    norm_num
  · have h1 : max (1 : ℚ) eps = 1 := max_eq_left (by norm_num [eps])
    unfold polRat clip
    rw [h1]
    have h2 : (1 / (1 : ℚ) - 2/100) / (3/10 - 2/100 + eps) = 9800000000/2800000001 := by
      norm_num [eps]
    rw [h2]
    have h3 : max (0 : ℚ) (9800000000/2800000001) = 9800000000/2800000001 :=
      max_eq_right (by norm_num)
    rw [h3]
    exact min_eq_left (by norm_num)
  · unfold probability fusion cexWeights
    norm_num

/-- C2 amended: the probability raster is missing exactly off the combined
mask and equals the weighted fusion on it; provided the eight weights are
nonnegative and their total is at most 1 (as the defaults, which sum to
exactly 1.0) and every indicator lies in [0,1], the on-mask value lies in
[0, 1]. -/
theorem probability_mask_and_range :
    ∀ (mask : Bool) (w : Weights) (i : Indicators),
      (probability mask w i = none ↔ mask = false)
        ∧ (mask = true → probability mask w i = some (fusion w i))
        ∧ (WeightsNonneg w → sumWeights w ≤ 1 → IndicatorsUnit i →
            0 ≤ fusion w i ∧ fusion w i ≤ 1) := by
  intro mask w i
  refine ⟨?_, ?_, ?_⟩
  · cases mask <;> simp [probability]
  · intro h
    subst h
    simp [probability]
  · rintro ⟨h1, h2, h3, h4, h5, h6, h7, h8⟩ hsum
      ⟨⟨a1, b1⟩, ⟨a2, b2⟩, ⟨a3, b3⟩, ⟨a4, b4⟩, ⟨a5, b5⟩, ⟨a6, b6⟩, ⟨a7, b7⟩, ⟨a8, b8⟩⟩
    constructor
    · have m1 := mul_nonneg h1 a1
      have m2 := mul_nonneg h2 a2
      have m3 := mul_nonneg h3 a3
      have m4 := mul_nonneg h4 a4
      have m5 := mul_nonneg h5 a5
      have m6 := mul_nonneg h6 a6
      have m7 := mul_nonneg h7 a7
      have m8 := mul_nonneg h8 a8
      unfold fusion
      linarith
    · have m1 := mul_le_of_le_one_right h1 b1
      have m2 := mul_le_of_le_one_right h2 b2
      have m3 := mul_le_of_le_one_right h3 b3
      have m4 := mul_le_of_le_one_right h4 b4
      have m5 := mul_le_of_le_one_right h5 b5
      have m6 := mul_le_of_le_one_right h6 b6
      have m7 := mul_le_of_le_one_right h7 b7
      have m8 := mul_le_of_le_one_right h8 b8
      unfold fusion
      unfold sumWeights at hsum
      linarith

/-- Witness for `probability_mask_and_range` at the default weights and all
indicators at 1/2. -/
theorem probability_mask_and_range_eval :
    WeightsNonneg defaultWeights
      ∧ sumWeights defaultWeights ≤ 1
      ∧ IndicatorsUnit ⟨1/2, 1/2, 1/2, 1/2, 1/2, 1/2, 1/2, 1/2⟩
      ∧ 0 ≤ fusion defaultWeights ⟨1/2, 1/2, 1/2, 1/2, 1/2, 1/2, 1/2, 1/2⟩
      ∧ fusion defaultWeights ⟨1/2, 1/2, 1/2, 1/2, 1/2, 1/2, 1/2, 1/2⟩ ≤ 1 := by
  have h1 : WeightsNonneg defaultWeights := by
    refine ⟨?_, ?_, ?_, ?_, ?_, ?_, ?_, ?_⟩ <;> norm_num [defaultWeights]
  have h2 : sumWeights defaultWeights ≤ 1 := by
    norm_num [sumWeights, defaultWeights]
  have h3 : IndicatorsUnit ⟨1/2, 1/2, 1/2, 1/2, 1/2, 1/2, 1/2, 1/2⟩ := by
    refine ⟨?_, ?_, ?_, ?_, ?_, ?_, ?_, ?_⟩ <;> constructor <;> norm_num
  have h4 := (probability_mask_and_range true defaultWeights
    ⟨1/2, 1/2, 1/2, 1/2, 1/2, 1/2, 1/2, 1/2⟩).2.2 h1 h2 h3
  exact ⟨h1, h2, h3, h4.1, h4.2⟩

/-- C6: the morphological cleaner (binarize at the medium threshold, one 3x3
erosion, one 3x3 dilation, re-apply original values on the cleaned mask)
removes a single isolated above-threshold pixel (it becomes missing) and
preserves every pixel of a 5x5 contiguous above-threshold block with its
original value. -/
theorem morphological_open_scenarios :
    morphologicalOpen probIso 1 0 0 = none
      ∧ (blockIdx.all fun x => blockIdx.all fun y =>
          morphologicalOpen probBlock 1 x y == probBlock x y) = true := by
  constructor
  · decide
  · decide

/-- C8: the seasonal-invariance indicator partitions scenes into the four
fixed calendar quarters (every month 1..12 belongs to exactly one quarter),
keeps only quarters with at least 3 contributing scenes, and when fewer than
two quarters survive it returns the neutral constant 0.5 — for any pixel
values whatsoever — instead of failing. -/
theorem seasonal_invariance_fallback :
    ((List.range 12).all fun m =>
        (quarterList.countP fun q => q.contains (m + 1)) == 1) = true
      ∧ ∀ scenes : List (ℕ × ℚ), (keptQuarterMeans scenes).length < 2 →
          seasonalInvariance scenes = 1 / 2 := by
  refine ⟨by decide, fun scenes h => ?_⟩
  unfold seasonalInvariance
  rw [if_pos h]

/-- Witness for `seasonal_invariance_fallback`: three scenes, all in the
December-February quarter, populate only one quarter. -/
theorem seasonal_invariance_fallback_eval :
    (keptQuarterMeans [(1, 5), (1, 7), (2, 9)]).length < 2
      ∧ seasonalInvariance [(1, 5), (1, 7), (2, 9)] = 1 / 2 := by
  have h : (keptQuarterMeans [(1, (5 : ℚ)), (1, 7), (2, 9)]).length < 2 := by
    decide
  exact ⟨h, seasonal_invariance_fallback.2 _ h⟩

/-- C9: the vectorizer returns the correctly-typed empty collection with the
documented attribute columns when labeling found no feature or when every
region fails the area filter, and the regularizer returns the correctly-typed
empty `_EMPTY_COLS` collection when handed no footprints or when its hard
filters reject every candidate — in all cases a value of the collection type,
never an absent value and never an exception. -/
theorem empty_collection_policy :
    (∀ pixel_area min_area : ℚ,
        extractFootprints [] pixel_area min_area = ⟨FP_COLS, []⟩)
      ∧ (∀ (regions : List Region) (pixel_area min_area : ℚ),
          (∀ r ∈ regions, areaKeep r.area_px pixel_area min_area = false) →
          extractFootprints regions pixel_area min_area = ⟨FP_COLS, []⟩)
      ∧ (∀ p : RegParams, regularizeFootprints p [] = ⟨REG_COLS, []⟩)
      ∧ (∀ (p : RegParams) (cands : List Candidate),
          (∀ c ∈ cands, hardFilterPass p c = false) →
          regularizeFootprints p cands = ⟨REG_COLS, []⟩) := by
  refine ⟨fun pa ma => rfl, ?_, fun p => rfl, ?_⟩
  · intro regs pa ma h
    cases regs with
    | nil => rfl
    | cons r rs =>
      have hf : List.filter (fun x => areaKeep x.area_px pa ma) (r :: rs) = [] := by
        rw [List.filter_eq_nil_iff]
        intro a ha
        simp [h a ha]
      simp [extractFootprints, hf]
  · intro p cands h
    cases cands with
    | nil => rfl
    | cons c cs =>
      have hf : List.filter (hardFilterPass p) (c :: cs) = [] := by
        rw [List.filter_eq_nil_iff]
        intro a ha
        simp [h a ha]
      simp [regularizeFootprints, hf]

/-- Witness for `empty_collection_policy`: a 1-pixel region (area 100 below
the 300 threshold) and a candidate with compactness below the floor. -/
theorem empty_collection_policy_eval :
    areaKeep 1 100 300 = false
      ∧ extractFootprints [⟨1, [0]⟩] 100 300 = ⟨FP_COLS, []⟩
      ∧ hardFilterPass ⟨25000, 1, 10, 0, 0⟩ ⟨100, 0, 1, 1, 1⟩ = false
      ∧ regularizeFootprints ⟨25000, 1, 10, 0, 0⟩ [⟨100, 0, 1, 1, 1⟩]
          = ⟨REG_COLS, []⟩ := by
  have h1 : areaKeep 1 100 300 = false := by
    simp only [areaKeep, Bool.not_eq_false', decide_eq_true_eq]
    push_cast
    norm_num
  have h2 : hardFilterPass ⟨25000, 1, 10, 0, 0⟩ ⟨100, 0, 1, 1, 1⟩ = false := by
    norm_num [hardFilterPass]
  refine ⟨h1, ?_, h2, ?_⟩
  · refine empty_collection_policy.2.1 _ _ _ ?_
    intro r hr
    have : r = ⟨1, [0]⟩ := by simpa using hr
    rw [this]
    exact h1
  · refine empty_collection_policy.2.2.2 _ _ ?_
    intro c hc
    have : c = ⟨100, 0, 1, 1, 1⟩ := by simpa using hc
    rw [this]
    exact h2
